import Mathlib

/-!
Verification of the asset/cache core of the `parcel` repository, shallowly
embedded from `packages/core/core/src/assetUtils.js` and the CSS transformer
source.  External library calls (`hashString` from `@parcel/hash`,
`hashFile`, `hashFromOption`, glob matching, path normalisation) are
modelled as explicit function parameters, since their implementations live
outside this repository.
-/

namespace Parcel

/-- A request invalidation record (`RequestInvalidation` in the core types):
a tagged record whose `type` field is `'file'` (with a `filePath`),
`'env'` (with a `key`), `'option'` (with a `key`), or — at runtime — any
other string, represented by `other`. -/
inductive RequestInvalidation where
  | file (filePath : String)
  | env (key : String)
  | option (key : String)
  | other (tag : String)
deriving DecidableEq, Repr

/-- The `type` string carried by an invalidation record. -/
def RequestInvalidation.ty : RequestInvalidation → String
  | .file _ => "file"
  | .env _ => "env"
  | .option _ => "option"
  | .other t => t

/-- Whether the record's kind is one of the three known kinds. -/
def RequestInvalidation.isKnown : RequestInvalidation → Bool
  | .other _ => false
  | _ => true

/-- Function `getInvalidationId` from `assetUtils.js` (lines 177-188): maps a known
invalidation to its canonical string id and throws on an unknown kind. -/
def getInvalidationId : RequestInvalidation → Except String String
  | .file p => .ok ("file:" ++ p)
  | .env k => .ok ("env:" ++ k)
  | .option k => .ok ("option:" ++ k)
  | .other t => .error ("Unknown invalidation type: " ++ t)

/-- The pure sort key used by `getInvalidationHash`'s comparator; on known
records it is exactly the string produced by `getInvalidationId` (for
unknown records the comparator throws in the source, so the key is never
observed there; we give it a disjoint value). -/
def invIdStr : RequestInvalidation → String
  | .file p => "file:" ++ p
  | .env k => "env:" ++ k
  | .option k => "option:" ++ k
  | .other t => "other:" ++ t

/-- The comparator ordering of `getInvalidationHash`'s sort. -/
def invLe (a b : RequestInvalidation) : Prop := invIdStr a ≤ invIdStr b

instance : DecidableRel invLe := fun _ _ => by
  unfold invLe; infer_instance

instance : IsTotal RequestInvalidation invLe := ⟨fun _ _ => le_total _ _⟩

instance : IsTrans RequestInvalidation invLe := ⟨fun _ _ _ => le_trans⟩

/-- The relevant slice of `ParcelOptions`: the environment map
(`options.env`), the content-hash of a file as produced by `hashFile` over
`options.inputFS`, and `hashFromOption` applied to a build option looked up
by key. -/
structure ParcelOptions where
  env : String → Option String
  fileHash : String → String
  optionHash : String → String

/-- The per-build file-hash memo (`hashCache` produced by
`createBuildCache()`), an association list from file path to hash. -/
abbrev HashMemo := List (String × String)

/-- One step of the loop in `getInvalidationHash` (lines 205-228):
accumulates the per-entry hash string, threading the file-hash memo, and
throws on an unknown invalidation kind. -/
def invalidationStep (opts : ParcelOptions) :
    String × HashMemo → RequestInvalidation → Except String (String × HashMemo)
  | (acc, memo), .file p =>
    match memo.lookup p with
    | some h => .ok (acc ++ h, memo)
    | none => .ok (acc ++ opts.fileHash p, (p, opts.fileHash p) :: memo)
  | (acc, memo), .env k => .ok (acc ++ k ++ ":" ++ ((opts.env k).getD ""), memo)
  | (acc, memo), .option k => .ok (acc ++ k ++ ":" ++ opts.optionHash k, memo)
  | _, .other t => .error ("Unknown invalidation type: " ++ t)

/-- Guard mirroring the fact that evaluating the id of an unknown-kind
record (in the sort comparator or in the loop) throws. -/
def checkKnown : RequestInvalidation → Except String Unit
  | .other t => .error ("Unknown invalidation type: " ++ t)
  | _ => .ok ()

/-- Function `getInvalidationHash` from `assetUtils.js` (lines 192-231),
parameterised by the external `hashString` function `h` and the incoming
state of the per-build file-hash memo: returns `""` for an empty entry
list without hashing; otherwise sorts the entries by their canonical id,
concatenates the per-entry hash strings and hashes once more; throws if
any entry has an unknown kind. -/
def getInvalidationHash (h : String → String) (opts : ParcelOptions)
    (memo : HashMemo) (invs : List RequestInvalidation) : Except String String :=
  if invs.isEmpty then .ok ""
  else
    (invs.mapM checkKnown).bind fun _ =>
      ((invs.insertionSort invLe).foldlM (invalidationStep opts) ("", memo)).map
        fun res => h res.1

theorem invIdStr_injective : Function.Injective invIdStr := by
  intro a b h
  have hd := congrArg String.data h
  cases a <;> cases b <;>
    simp only [invIdStr, String.data_append] at hd <;>
    simp [show "file:".data = ['f', 'i', 'l', 'e', ':'] from rfl,
      show "env:".data = ['e', 'n', 'v', ':'] from rfl,
      show "option:".data = ['o', 'p', 't', 'i', 'o', 'n', ':'] from rfl,
      show "other:".data = ['o', 't', 'h', 'e', 'r', ':'] from rfl] at hd <;>
    exact congrArg _ (String.ext hd)

instance : IsAntisymm RequestInvalidation invLe :=
  ⟨fun _ _ h1 h2 => invIdStr_injective (le_antisymm h1 h2)⟩

theorem mapM_checkKnown_of_known (l : List RequestInvalidation)
    (hk : ∀ i ∈ l, i.isKnown) :
    l.mapM checkKnown = .ok (l.map fun _ => ()) := by
  induction l with
  | nil => rfl
  | cons a l ih =>
    have ha : checkKnown a = .ok () := by
      have := hk a (List.mem_cons_self a l)
      cases a <;> simp_all [checkKnown, RequestInvalidation.isKnown]
    rw [List.mapM_cons, ha, ih fun i hi => hk i (List.mem_cons_of_mem a hi)]
    rfl

theorem mapM_checkKnown_of_unknown (l : List RequestInvalidation)
    (hmem : ∃ t, RequestInvalidation.other t ∈ l) :
    ∃ e, l.mapM checkKnown = .error e := by
  induction l with
  | nil => obtain ⟨t, ht⟩ := hmem; simp at ht
  | cons a l ih =>
    obtain ⟨t, ht⟩ := hmem
    rcases List.mem_cons.1 ht with h | h
    · exact ⟨"Unknown invalidation type: " ++ t, by rw [List.mapM_cons, ← h]; rfl⟩
    · by_cases ha : ∃ t', a = RequestInvalidation.other t'
      · obtain ⟨t', ht'⟩ := ha
        exact ⟨"Unknown invalidation type: " ++ t', by rw [List.mapM_cons, ht']; rfl⟩
      · have hok : checkKnown a = .ok () := by
          cases a <;> simp_all [checkKnown]
        obtain ⟨e, he⟩ := ih ⟨t, h⟩
        exact ⟨e, by rw [List.mapM_cons, hok, he]; rfl⟩

/-- Sample options used to instantiate the theorems below. -/
def sampleOptions : ParcelOptions :=
  ⟨fun _ => none, fun _ => "", fun _ => ""⟩

/-- C1: for every set of known invalidation entries, `getInvalidationHash`
returns the same digest for every permutation of that set, and for the
empty set it returns the empty string without hashing (for every hash
function `h`, so no hashing can have occurred). -/
theorem getInvalidationHash_perm_invariant (h : String → String)
    (opts : ParcelOptions) (memo : HashMemo)
    (l1 l2 : List RequestInvalidation)
    (hk : ∀ i ∈ l1, i.isKnown) (hp : l1.Perm l2) :
    getInvalidationHash h opts memo l1 = getInvalidationHash h opts memo l2 ∧
      getInvalidationHash h opts memo [] = .ok "" := by
  refine ⟨?_, rfl⟩
  by_cases hnil : l1 = []
  · have h2 : l2 = [] := List.length_eq_zero.1 (by rw [← hp.length_eq, hnil]; rfl)
    rw [hnil, h2]
  · have hnil2 : l2 ≠ [] := fun h2 =>
      hnil (List.length_eq_zero.1 (by rw [hp.length_eq, h2]; rfl))
    have hk2 : ∀ i ∈ l2, i.isKnown := fun i hi => hk i (hp.mem_iff.2 hi)
    have hsort : l1.insertionSort invLe = l2.insertionSort invLe :=
      List.eq_of_perm_of_sorted
        (((List.perm_insertionSort invLe l1).trans hp).trans
          (List.perm_insertionSort invLe l2).symm)
        (List.sorted_insertionSort invLe l1) (List.sorted_insertionSort invLe l2)
    rw [getInvalidationHash, getInvalidationHash,
      if_neg (by simp [hnil]), if_neg (by simp [hnil2]),
      mapM_checkKnown_of_known l1 hk, mapM_checkKnown_of_known l2 hk2, hsort]
    rfl

theorem getInvalidationHash_perm_invariant_witness :
    getInvalidationHash (fun s => s) sampleOptions []
        [.env "B", .file "a"] =
      getInvalidationHash (fun s => s) sampleOptions []
        [.file "a", .env "B"] ∧
      getInvalidationHash (fun s => s) sampleOptions [] [] = .ok "" :=
  getInvalidationHash_perm_invariant (fun s => s) sampleOptions []
    [.env "B", .file "a"] [.file "a", .env "B"] (by decide) (by decide)

/-- C5: an invalidation record whose `type` is none of `'file'`, `'env'`,
`'option'` makes `getInvalidationId` fail with the fatal
`Unknown invalidation type` error, and makes `getInvalidationHash` fail
for every entry list containing it; no fallback value is produced. -/
theorem getInvalidation_unknown_fatal (inv : RequestInvalidation)
    (hf : inv.ty ≠ "file") (he : inv.ty ≠ "env") (ho : inv.ty ≠ "option")
    (h : String → String) (opts : ParcelOptions) (memo : HashMemo)
    (invs : List RequestInvalidation) (hmem : inv ∈ invs) :
    getInvalidationId inv = .error ("Unknown invalidation type: " ++ inv.ty) ∧
      ∃ e, getInvalidationHash h opts memo invs = .error e := by
  obtain ⟨t, ht⟩ : ∃ t, inv = .other t := by
    cases inv with
    | file p => exact absurd rfl hf
    | env k => exact absurd rfl he
    | option k => exact absurd rfl ho
    | other t => exact ⟨t, rfl⟩
  subst ht
  refine ⟨rfl, ?_⟩
  have hne : invs ≠ [] := fun hn => by subst hn; simp at hmem
  obtain ⟨e, hme⟩ := mapM_checkKnown_of_unknown invs ⟨t, hmem⟩
  refine ⟨e, ?_⟩
  rw [getInvalidationHash, if_neg (by simp [hne]), hme]
  rfl

theorem getInvalidation_unknown_fatal_witness :
    getInvalidationId (.other "glob") =
        .error ("Unknown invalidation type: " ++
          (RequestInvalidation.other "glob").ty) ∧
      ∃ e, getInvalidationHash (fun s => s) sampleOptions []
          [.other "glob"] = .error e :=
  getInvalidation_unknown_fatal (.other "glob") (by decide) (by decide)
    (by decide) (fun s => s) sampleOptions [] [.other "glob"] (by decide)

/-- C10: the digest computed by `getInvalidationHash` cannot distinguish an
environment variable that is absent from one that is set to the empty
string: if two option records differ only in that the variable `k` is
absent in one and the empty string in the other, every invalidation list
(in particular any one containing an `env` entry for `k`) hashes to the
same result. -/
theorem getInvalidationHash_env_absent_eq_empty (h : String → String)
    (memo : HashMemo) (o1 o2 : ParcelOptions) (k : String)
    (hfh : o1.fileHash = o2.fileHash) (hoh : o1.optionHash = o2.optionHash)
    (henv : ∀ x, x ≠ k → o1.env x = o2.env x)
    (h1 : o1.env k = none) (h2 : o2.env k = some "")
    (invs : List RequestInvalidation) :
    getInvalidationHash h o1 memo invs = getInvalidationHash h o2 memo invs := by
  have hstep : invalidationStep o1 = invalidationStep o2 := by
    funext acc inv
    obtain ⟨s, m⟩ := acc
    cases inv with
    | file p => simp [invalidationStep, hfh]
    | env k' =>
      by_cases hk' : k' = k
      · subst hk'; simp [invalidationStep, h1, h2]
      · simp [invalidationStep, henv k' hk']
    | option k' => simp [invalidationStep, hoh]
    | other t => rfl
  rw [getInvalidationHash, getInvalidationHash, hstep]

/-- Options with the variable `PATH` unset. -/
def envAbsentOptions : ParcelOptions :=
  ⟨fun x => if x = "PATH" then none else some x, fun _ => "", fun _ => ""⟩

/-- Options with the variable `PATH` set to the empty string. -/
def envEmptyOptions : ParcelOptions :=
  ⟨fun x => if x = "PATH" then some "" else some x, fun _ => "", fun _ => ""⟩

theorem getInvalidationHash_env_absent_eq_empty_witness :
    getInvalidationHash (fun s => s) envAbsentOptions [] [.env "PATH"] =
      getInvalidationHash (fun s => s) envEmptyOptions [] [.env "PATH"] :=
  getInvalidationHash_env_absent_eq_empty (fun s => s) [] envAbsentOptions
    envEmptyOptions "PATH" rfl rfl
    (fun x hx => by simp [envAbsentOptions, envEmptyOptions, hx])
    (by simp [envAbsentOptions]) (by simp [envEmptyOptions]) [.env "PATH"]

/-- An AST generator descriptor (`ASTGenerator`): plugin type and version. -/
structure ASTGenerator where
  ty : String
  version : String
deriving DecidableEq, Repr

/-- A dependency record; `createAsset` and `createAssetIdFromOptions` never
inspect it, they only carry the dependency map through. -/
structure Dependency where
  id : String
deriving DecidableEq, Repr

/-- An environment record; only its `id` participates in asset identity. -/
structure Environment where
  id : String
  context : String
deriving DecidableEq, Repr

/-- Asset statistics (`Stats`): time and size. -/
structure Stats where
  time : Nat
  size : Nat
deriving DecidableEq, Repr

/-- One exported symbol's data: the local binding name. -/
structure SymbolData where
  localName : String
deriving DecidableEq, Repr

/-- Record `AssetOptions` from `assetUtils.js` (lines 39-66): the options record
accepted by `createAsset` / `createAssetIdFromOptions`.  Optional (`?`)
fields are `Option`s; maps and JSON objects are association lists. -/
structure AssetOptions where
  id : Option String := none
  committed : Option Bool := none
  hash : Option String := none
  idBase : Option String := none
  filePath : String
  query : Option (List (String × String)) := none
  ty : String
  contentKey : Option String := none
  mapKey : Option String := none
  astKey : Option String := none
  astGenerator : Option ASTGenerator := none
  dependencies : Option (List (String × Dependency)) := none
  bundleBehavior : Option String := none
  isBundleSplittable : Option Bool := none
  isSource : Bool
  env : Environment
  meta : Option (List (String × String)) := none
  outputHash : Option String := none
  pipeline : Option String := none
  stats : Stats
  symbols : Option (List (String × SymbolData)) := none
  sideEffects : Option Bool := none
  uniqueKey : Option String := none
  plugin : Option String := none
  configPath : Option String := none
  configKeyPath : Option String := none
deriving DecidableEq, Repr

/-- JSON string quoting as performed by `JSON.stringify` on a string value
(escaping of the quote and backslash characters; other escapes do not
occur in the identity claims considered here). -/
def jsonQuote (s : String) : String :=
  "\"" ++ s.foldl (fun acc c =>
    acc ++ (if c = '"' then "\\\"" else if c = '\\' then "\\\\"
      else String.singleton c)) "" ++ "\""

/-- The value of `JSON.stringify(objectSortedEntries(query))`: the query object's
entries sorted by key and serialised as a JSON array of two-element
arrays. -/
def stringifySortedEntries (q : List (String × String)) : String :=
  let sorted := q.insertionSort fun a b => a.1 ≤ b.1
  "[" ++ String.intercalate ","
    (sorted.map fun e => "[" ++ jsonQuote e.1 ++ "," ++ jsonQuote e.2 ++ "]") ++ "]"

/-- Function `createAssetIdFromOptions` from `assetUtils.js` (lines 68-85),
parameterised by the external `hashString` function `h`; the source's
local bindings (`uniqueKey`, `idBase`, `queryString`) are inlined. -/
def createAssetIdFromOptions (h : String → String) (options : AssetOptions) :
    String :=
  h (options.idBase.getD options.filePath ++ options.ty ++ options.env.id ++
    options.uniqueKey.getD "" ++ ":" ++ options.pipeline.getD "" ++ ":" ++
    (match options.query with
     | some q => stringifySortedEntries q
     | none => ""))

/-- Numeric encoding of `BundleBehavior`.  Modelled from the spec: the map
`BundleBehaviorMap` lives in the core `types.js`, which is not among the
shown sources; the spec describes the bundle-placement hint as one of
`inline`/`isolated`. -/
def BundleBehaviorMap (b : String) : Nat :=
  if b = "inline" then 0 else 1

/-- The `Asset` record produced by `createAsset` (the core `Asset` type). -/
structure Asset where
  id : String
  committed : Bool
  hash : Option String
  filePath : String
  query : Option (List (String × String))
  bundleBehavior : Option Nat
  isBundleSplittable : Bool
  ty : String
  contentKey : Option String
  mapKey : Option String
  astKey : Option String
  astGenerator : Option ASTGenerator
  dependencies : List (String × Dependency)
  isSource : Bool
  outputHash : Option String
  pipeline : Option String
  env : Environment
  meta : List (String × String)
  stats : Stats
  symbols : Option (List (String × SymbolData))
  sideEffects : Bool
  uniqueKey : String
  plugin : Option String
  configPath : Option String
  configKeyPath : Option String
deriving DecidableEq, Repr

/-- Function `createAsset` from `assetUtils.js` (lines 87-117), parameterised by the
external `hashString` function `h`. -/
def createAsset (h : String → String) (options : AssetOptions) : Asset where
  id := options.id.getD (createAssetIdFromOptions h options)
  committed := options.committed.getD false
  hash := options.hash
  filePath := options.filePath
  query := options.query
  bundleBehavior := options.bundleBehavior.map BundleBehaviorMap
  isBundleSplittable := options.isBundleSplittable.getD true
  ty := options.ty
  contentKey := options.contentKey
  mapKey := options.mapKey
  astKey := options.astKey
  astGenerator := options.astGenerator
  dependencies := options.dependencies.getD []
  isSource := options.isSource
  outputHash := options.outputHash
  pipeline := options.pipeline
  env := options.env
  meta := options.meta.getD []
  stats := options.stats
  symbols := options.symbols
  sideEffects := options.sideEffects.getD true
  uniqueKey := options.uniqueKey.getD ""
  plugin := options.plugin
  configPath := options.configPath
  configKeyPath := options.configKeyPath

/-- C3: asset identity is a pure function of the six identity inputs
(base path — `idBase` defaulting to `filePath` — type, environment id,
unique key, pipeline, query); records that agree on those six receive the
same id, whatever their other fields hold. -/
theorem createAssetIdFromOptions_deterministic (h : String → String)
    (o1 o2 : AssetOptions)
    (hbase : o1.idBase.getD o1.filePath = o2.idBase.getD o2.filePath)
    (hty : o1.ty = o2.ty) (henv : o1.env.id = o2.env.id)
    (huk : o1.uniqueKey.getD "" = o2.uniqueKey.getD "")
    (hpipe : o1.pipeline.getD "" = o2.pipeline.getD "")
    (hq : o1.query = o2.query) :
    createAssetIdFromOptions h o1 = createAssetIdFromOptions h o2 := by
  unfold createAssetIdFromOptions
  rw [hbase, hty, henv, huk, hpipe, hq]

/-- A sample environment. -/
def sampleEnv : Environment := ⟨"env1", "browser"⟩

/-- Sample asset options. -/
def sampleAssetOptions : AssetOptions :=
  { filePath := "src/a.js", ty := "js", isSource := true,
    env := sampleEnv, stats := ⟨0, 0⟩ }

/-- The same identity inputs as `sampleAssetOptions`, every other field
different. -/
def sampleAssetOptionsAlt : AssetOptions :=
  { filePath := "src/a.js", ty := "js", isSource := false,
    env := ⟨"env1", "node"⟩, stats := ⟨7, 42⟩, hash := some "h2",
    committed := some true, contentKey := some "ck", mapKey := some "mk",
    astKey := some "ak", astGenerator := some ⟨"babel", "7.0.0"⟩,
    dependencies := some [("d", ⟨"d"⟩)], bundleBehavior := some "inline",
    meta := some [("k", "v")], outputHash := some "oh",
    symbols := some [("x", ⟨"x1"⟩)], plugin := some "@parcel/transformer-js",
    configPath := some ".parcelrc", configKeyPath := some "transformers" }

theorem createAssetIdFromOptions_deterministic_witness :
    createAssetIdFromOptions (fun s => s) sampleAssetOptions =
      createAssetIdFromOptions (fun s => s) sampleAssetOptionsAlt :=
  createAssetIdFromOptions_deterministic (fun s => s) sampleAssetOptions
    sampleAssetOptionsAlt rfl rfl rfl rfl rfl rfl

/-- C4: if two option records agree on base path, type, environment id,
pipeline and query but their (defaulted) unique keys differ, the hash
inputs differ, so any injective hash assigns them distinct identities. -/
theorem createAssetIdFromOptions_uniqueKey_distinct (h : String → String)
    (hinj : Function.Injective h) (o1 o2 : AssetOptions)
    (hbase : o1.idBase.getD o1.filePath = o2.idBase.getD o2.filePath)
    (hty : o1.ty = o2.ty) (henv : o1.env.id = o2.env.id)
    (hpipe : o1.pipeline.getD "" = o2.pipeline.getD "")
    (hq : o1.query = o2.query)
    (huk : o1.uniqueKey.getD "" ≠ o2.uniqueKey.getD "") :
    createAssetIdFromOptions h o1 ≠ createAssetIdFromOptions h o2 := by
  intro heq
  apply huk
  have hs := hinj heq
  rw [hbase, hty, henv, hpipe, hq] at hs
  have hd := congrArg String.data hs
  simp only [String.data_append, List.append_assoc] at hd
  exact String.ext (List.append_cancel_right
    (List.append_cancel_left (List.append_cancel_left
      (List.append_cancel_left hd))))

/-- Options with a manually assigned unique key `uk1`. -/
def uniqueKeyOptions1 : AssetOptions :=
  { filePath := "src/a.js", ty := "js", isSource := true,
    env := sampleEnv, stats := ⟨0, 0⟩, uniqueKey := some "uk1" }

/-- Options with a manually assigned unique key `uk2`. -/
def uniqueKeyOptions2 : AssetOptions :=
  { filePath := "src/a.js", ty := "js", isSource := true,
    env := sampleEnv, stats := ⟨0, 0⟩, uniqueKey := some "uk2" }

theorem createAssetIdFromOptions_uniqueKey_distinct_witness :
    createAssetIdFromOptions (fun s => s) uniqueKeyOptions1 ≠
      createAssetIdFromOptions (fun s => s) uniqueKeyOptions2 :=
  createAssetIdFromOptions_uniqueKey_distinct (fun s => s)
    (fun _ _ hab => hab) uniqueKeyOptions1 uniqueKeyOptions2
    rfl rfl rfl rfl rfl (by decide)

/-- Options with file path `a` and type `bc`. -/
def collidingOptionsA : AssetOptions :=
  { filePath := "a", ty := "bc", isSource := true,
    env := sampleEnv, stats := ⟨0, 0⟩ }

/-- Options with file path `ab` and type `c`. -/
def collidingOptionsB : AssetOptions :=
  { filePath := "ab", ty := "c", isSource := true,
    env := sampleEnv, stats := ⟨0, 0⟩ }

/-- C9: asset identity is not injective in `(filePath, type, environment
id, uniqueKey)`: file path `a` with type `bc` and file path `ab` with type
`c` concatenate to the same pre-hash string, so they collide to the same
identity under every hash function. -/
theorem createAssetIdFromOptions_not_injective :
    (∀ h : String → String,
      createAssetIdFromOptions h collidingOptionsA =
        createAssetIdFromOptions h collidingOptionsB) ∧
      collidingOptionsA.filePath ≠ collidingOptionsB.filePath ∧
      collidingOptionsA.ty ≠ collidingOptionsB.ty :=
  ⟨fun h => congrArg h (by decide), by decide, by decide⟩

/-- C7: `createAsset` uses the supplied `id` when present and otherwise
`createAssetIdFromOptions`, and fills exactly these defaults for omitted
optional fields: empty dependency map, `sideEffects` true,
`isBundleSplittable` true, empty `meta` object. -/
theorem createAsset_id_and_defaults (h : String → String) (o : AssetOptions)
    (hdep : o.dependencies = none) (hse : o.sideEffects = none)
    (hsp : o.isBundleSplittable = none) (hmeta : o.meta = none) :
    (createAsset h o).id = (match o.id with
      | some i => i
      | none => createAssetIdFromOptions h o) ∧
      (createAsset h o).dependencies = [] ∧
      (createAsset h o).sideEffects = true ∧
      (createAsset h o).isBundleSplittable = true ∧
      (createAsset h o).meta = [] := by
  refine ⟨?_, by simp [createAsset, hdep], by simp [createAsset, hse],
    by simp [createAsset, hsp], by simp [createAsset, hmeta]⟩
  cases hid : o.id <;> simp [createAsset, hid]

theorem createAsset_id_and_defaults_witness :
    (createAsset (fun s => s) sampleAssetOptions).id =
        (match sampleAssetOptions.id with
          | some i => i
          | none => createAssetIdFromOptions (fun s => s) sampleAssetOptions) ∧
      (createAsset (fun s => s) sampleAssetOptions).dependencies = [] ∧
      (createAsset (fun s => s) sampleAssetOptions).sideEffects = true ∧
      (createAsset (fun s => s) sampleAssetOptions).isBundleSplittable = true ∧
      (createAsset (fun s => s) sampleAssetOptions).meta = [] :=
  createAsset_id_and_defaults (fun s => s) sampleAssetOptions rfl rfl rfl rfl

/-- The output of a transform plugin's generation step
(`GenerateOutput`): content and an optional source map. -/
structure GenerateOutput where
  content : String
  map : Option String
deriving DecidableEq, Repr

/-- The state surrounding `generateFromAST` (`assetUtils.js` lines
119-130): the module-level `generateResults` weak map from the identity of
an `asset.value` object to the (in-flight or settled) generation result,
plus a log of the asset values for which the underlying
`_generateFromAST` computation was actually started. -/
structure GenState where
  generateResults : List (Nat × GenerateOutput)
  genCalls : List Nat
deriving DecidableEq, Repr

/-- The empty initial state of the `generateResults` weak map. -/
def emptyGenState : GenState := ⟨[], []⟩

/-- Function `generateFromAST` (lines 121-130), with the underlying
`_generateFromAST` computation abstracted as the function `gen` on asset
values: looks up `asset.value` in the weak map; on a miss it starts the
computation, records it under `asset.value`, and logs the call; on a hit
it returns the stored computation and starts nothing. -/
def generateFromAST (gen : Nat → GenerateOutput) (assetValue : Nat)
    (s : GenState) : GenerateOutput × GenState :=
  match s.generateResults.lookup assetValue with
  | some output => (output, s)
  | none =>
    (gen assetValue,
      ⟨(assetValue, gen assetValue) :: s.generateResults,
        s.genCalls ++ [assetValue]⟩)

/-- Issue a sequence of `generateFromAST` calls, returning the final
state. -/
def runGenerateCalls (gen : Nat → GenerateOutput) (calls : List Nat)
    (s : GenState) : GenState :=
  calls.foldl (fun st v => (generateFromAST gen v st).2) s

theorem generateFromAST_hit (gen : Nat → GenerateOutput) (v : Nat)
    (s : GenState) (h : s.generateResults.lookup v = some (gen v)) :
    generateFromAST gen v s = (gen v, s) := by
  simp [generateFromAST, h]

theorem runGenerateCalls_same_fixed (gen : Nat → GenerateOutput) (v : Nat)
    (n : Nat) (s : GenState) (h : s.generateResults.lookup v = some (gen v)) :
    runGenerateCalls gen (List.replicate n v) s = s := by
  induction n with
  | zero => rfl
  | succ n ih =>
    rw [List.replicate_succ, runGenerateCalls, List.foldl_cons,
      show (generateFromAST gen v s).2 = s from congrArg Prod.snd
        (generateFromAST_hit gen v s h)]
    exact ih

/-- C2: starting from an empty `generateResults` map, any positive number
of `generateFromAST` calls for the same asset value starts the underlying
generation exactly once — the first call stores the computation keyed by
the asset value — and every call (the first and each later one) returns
that same computation's result. -/
theorem generateFromAST_once (gen : Nat → GenerateOutput) (v : Nat)
    (n : Nat) (hn : 0 < n) :
    (runGenerateCalls gen (List.replicate n v) emptyGenState).genCalls = [v] ∧
      ∀ m : Nat,
        (generateFromAST gen v
          (runGenerateCalls gen (List.replicate m v) emptyGenState)).1 =
          gen v := by
  obtain ⟨k, rfl⟩ : ∃ k, n = k + 1 := ⟨n - 1, (Nat.succ_pred_eq_of_pos hn).symm⟩
  have hstate : ∀ m : Nat,
      runGenerateCalls gen (List.replicate (m + 1) v) emptyGenState =
        ⟨[(v, gen v)], [v]⟩ := by
    intro m
    rw [List.replicate_succ, runGenerateCalls, List.foldl_cons]
    have h1 : (generateFromAST gen v emptyGenState).2 = ⟨[(v, gen v)], [v]⟩ := rfl
    rw [h1]
    exact runGenerateCalls_same_fixed gen v m ⟨[(v, gen v)], [v]⟩ (by simp)
  refine ⟨by rw [hstate k], ?_⟩
  intro m
  cases m with
  | zero => rfl
  | succ m =>
    rw [hstate m]
    exact congrArg Prod.fst (generateFromAST_hit gen v ⟨[(v, gen v)], [v]⟩ (by simp))

theorem generateFromAST_once_witness :
    (runGenerateCalls (fun _ => ⟨"out", none⟩) (List.replicate 3 5)
        emptyGenState).genCalls = [5] ∧
      ∀ m : Nat,
        (generateFromAST (fun _ => ⟨"out", none⟩) 5
          (runGenerateCalls (fun _ => ⟨"out", none⟩) (List.replicate m 5)
            emptyGenState)).1 = (fun _ => (⟨"out", none⟩ : GenerateOutput)) 5 :=
  generateFromAST_once (fun _ => ⟨"out", none⟩) 5 3 (by decide)

/-- A postcss message as inspected by the CSS transformer's `transform`
stage: a `dependency` message names a file, a `dir-dependency` message
names a directory and an optional glob; all other message types are
ignored by the loop. -/
inductive PostcssMessage where
  | dependency (file : String)
  | dirDependency (dir : String) (glob : Option String)
  | other (ty : String)
deriving DecidableEq, Repr

/-- The invalidation entries recorded on an asset during `transform`.
Modelled from the spec: every Asset records, at transform time, the set of
`invalidateOnFileChange` / `invalidateOnFileCreate` entries it depends on
(the recording methods themselves live outside the shown sources). -/
structure TransformInvalidations where
  invalidateOnFileChange : List String
  invalidateOnFileCreate : List String
deriving DecidableEq, Repr

/-- One iteration of the postcss message loop of the CSS transformer's
`transform` (`part_000` lines 114-125), with the external glob matcher
and `path.normalize` as the parameters `globFn` and `normalize`:
a `dependency` message records a file-change invalidation for its file; a
`dir-dependency` message records a file-change invalidation for every file
currently matching `<dir>/<glob or **/*>` (normalised) and a glob
file-create invalidation for that pattern. -/
def processPostcssMessage (globFn : String → List String)
    (normalize : String → String) (st : TransformInvalidations) :
    PostcssMessage → TransformInvalidations
  | .dependency file =>
    { st with invalidateOnFileChange := st.invalidateOnFileChange ++ [file] }
  | .dirDependency dir g =>
    let pattern := dir ++ "/" ++ g.getD "**/*"
    { invalidateOnFileChange :=
        st.invalidateOnFileChange ++ (globFn pattern).map normalize,
      invalidateOnFileCreate := st.invalidateOnFileCreate ++ [pattern] }
  | .other _ => st

/-- The whole message loop. -/
def processPostcssMessages (globFn : String → List String)
    (normalize : String → String) (msgs : List PostcssMessage)
    (st : TransformInvalidations) : TransformInvalidations :=
  msgs.foldl (processPostcssMessage globFn normalize) st

theorem processPostcssMessage_mono (globFn : String → List String)
    (normalize : String → String) (st : TransformInvalidations)
    (msg : PostcssMessage) :
    st.invalidateOnFileChange ⊆
        (processPostcssMessage globFn normalize st msg).invalidateOnFileChange ∧
      st.invalidateOnFileCreate ⊆
        (processPostcssMessage globFn normalize st msg).invalidateOnFileCreate := by
  cases msg with
  | dependency file =>
    exact ⟨fun x hx => List.mem_append_left _ hx, fun x hx => hx⟩
  | dirDependency dir g =>
    exact ⟨fun x hx => List.mem_append_left _ hx,
      fun x hx => List.mem_append_left _ hx⟩
  | other ty => exact ⟨fun x hx => hx, fun x hx => hx⟩

theorem processPostcssMessages_mono (globFn : String → List String)
    (normalize : String → String) (msgs : List PostcssMessage)
    (st : TransformInvalidations) :
    st.invalidateOnFileChange ⊆
        (processPostcssMessages globFn normalize msgs st).invalidateOnFileChange ∧
      st.invalidateOnFileCreate ⊆
        (processPostcssMessages globFn normalize msgs st).invalidateOnFileCreate := by
  induction msgs generalizing st with
  | nil => exact ⟨fun x hx => hx, fun x hx => hx⟩
  | cons m ms ih =>
    have h1 := processPostcssMessage_mono globFn normalize st m
    have h2 := ih (processPostcssMessage globFn normalize st m)
    exact ⟨fun x hx => h2.1 (h1.1 hx), fun x hx => h2.2 (h1.2 hx)⟩

/-- C8: after the CSS transformer's message loop, every `dependency`
message's file carries a file-change invalidation, and every
`dir-dependency` message's pattern `<dir>/<glob or **/*>` carries a glob
file-create invalidation while each file currently matching the pattern
carries a (normalised) file-change invalidation. -/
theorem cssTransform_records_invalidations (globFn : String → List String)
    (normalize : String → String) (msgs : List PostcssMessage)
    (st : TransformInvalidations) :
    (∀ f, PostcssMessage.dependency f ∈ msgs →
      f ∈ (processPostcssMessages globFn normalize msgs
        st).invalidateOnFileChange) ∧
      ∀ d g, PostcssMessage.dirDependency d g ∈ msgs →
        (d ++ "/" ++ g.getD "**/*") ∈
            (processPostcssMessages globFn normalize msgs
              st).invalidateOnFileCreate ∧
          ∀ f ∈ globFn (d ++ "/" ++ g.getD "**/*"),
            normalize f ∈ (processPostcssMessages globFn normalize msgs
              st).invalidateOnFileChange := by
  induction msgs generalizing st with
  | nil => exact ⟨fun f hf => absurd hf (List.not_mem_nil _),
      fun d g hdg => absurd hdg (List.not_mem_nil _)⟩
  | cons m ms ih =>
    have hms := ih (processPostcssMessage globFn normalize st m)
    have hmono := processPostcssMessages_mono globFn normalize ms
      (processPostcssMessage globFn normalize st m)
    constructor
    · intro f hf
      rcases List.mem_cons.1 hf with hf | hf
      · subst hf
        exact hmono.1 (List.mem_append_right _ (List.mem_singleton.2 rfl))
      · exact hms.1 f hf
    · intro d g hdg
      rcases List.mem_cons.1 hdg with hdg | hdg
      · subst hdg
        refine ⟨hmono.2 (List.mem_append_right _ (List.mem_singleton.2 rfl)), ?_⟩
        intro f hfm
        exact hmono.1 (List.mem_append_right _ (List.mem_map_of_mem normalize hfm))
      · exact hms.2 d g hdg

/-- A sample glob matcher used to instantiate the theorem above. -/
def sampleGlobFn (pattern : String) : List String :=
  if pattern = "theme/**/*" then ["theme/dark.css", "theme/light.css"] else []

theorem cssTransform_records_invalidations_witness :
    "reset.css" ∈ (processPostcssMessages sampleGlobFn (fun s => s)
        [.dependency "reset.css", .dirDependency "theme" none]
        ⟨[], []⟩).invalidateOnFileChange ∧
      ("theme" ++ "/" ++ (Option.getD none "**/*")) ∈
        (processPostcssMessages sampleGlobFn (fun s => s)
          [.dependency "reset.css", .dirDependency "theme" none]
          ⟨[], []⟩).invalidateOnFileCreate :=
  ⟨(cssTransform_records_invalidations sampleGlobFn (fun s => s)
      [.dependency "reset.css", .dirDependency "theme" none] ⟨[], []⟩).1
      "reset.css" (by decide),
    ((cssTransform_records_invalidations sampleGlobFn (fun s => s)
      [.dependency "reset.css", .dirDependency "theme" none] ⟨[], []⟩).2
      "theme" none (by decide)).1⟩

/-- The sentinel placed in the `symbol` field of a `SymbolResolution`
(types, lines 1264-1273): a concrete `Symbol` string when resolved, JS
`null` for bail-out, JS `undefined` for not-found, JS `false` for
skipped. -/
inductive ResolvedSymbol where
  | sym (s : String)
  | bailNull
  | notFoundUndefined
  | skippedFalse
deriving DecidableEq, Repr

/-- The result record of `resolveSymbol`: the asset reached, the export
name asked for, and the sentinel-valued `symbol` field. -/
structure SymbolResolution where
  asset : String
  exportSymbol : String
  symbol : ResolvedSymbol
deriving DecidableEq, Repr

/-- A dependency edge as seen by symbol resolution: the asset it resolved
to (if any), whether the resolver marked it dead, and its weak re-export
entries `(exported name, name imported from the target)`. -/
structure SymDep where
  resolvedTo : Option String
  excluded : Bool
  reexports : List (String × String)
deriving DecidableEq, Repr

/-- An asset as seen by symbol resolution: its id, its export-symbol table
(`none` is the cleared/unknown state), and its dependencies. -/
structure SymAsset where
  id : String
  symbols : Option (List (String × String))
  deps : List SymDep
deriving DecidableEq, Repr

/-- The asset-graph slice symbol resolution walks. -/
structure SymGraph where
  assets : List SymAsset
deriving DecidableEq, Repr

/-- Look up an asset by id. -/
def SymGraph.find (g : SymGraph) (aid : String) : Option SymAsset :=
  g.assets.find? fun a => a.id = aid

/-- Whether the caller-supplied boundary bundle (if any) contains the
asset (`bundle.hasAsset`); no boundary admits every asset. -/
def boundaryHasAsset : Option (List String) → String → Bool
  | none, _ => true
  | some b, aid => decide (aid ∈ b)

/-- A fuel bound large enough for the visited-set-guarded walk; its exact
value is irrelevant to the theorems, only its positivity. -/
def symFuel (g : SymGraph) : Nat :=
  (g.assets.foldl (fun n a => n + 1 + a.deps.length) 0) + 1

/-- Modelled from the spec: the implementation of
`BundleGraph.resolveSymbol` is not among the shown sources (only its
declaration and doc comment, lines 1418-1433, are); this follows §4.4 of
the spec and that comment.  Starting from `(asset, symbol)`: once the
boundary was left (`bundle.hasAsset(asset) === false`) stop and leave
`symbol` undefined while still identifying the asset reached; a visited
entry or an unknown asset resolves to not-found; a cleared export table
bails out (`null`); an own-table hit resolves to the local binding;
otherwise each weak re-export dependency is followed into its resolved
target (a dead edge yields the skipped sentinel `false`), and the first
non-not-found outcome wins. -/
def resolveSymbolAux (g : SymGraph) (boundary : Option (List String)) :
    Nat → List (String × String) → String → String → SymbolResolution
  | 0, _, aid, sym => ⟨aid, sym, .notFoundUndefined⟩
  | fuel + 1, visited, aid, sym =>
    if boundaryHasAsset boundary aid then
      if (aid, sym) ∈ visited then ⟨aid, sym, .notFoundUndefined⟩
      else
        match g.find aid with
        | none => ⟨aid, sym, .notFoundUndefined⟩
        | some a =>
          match a.symbols with
          | none => ⟨aid, sym, .bailNull⟩
          | some tbl =>
            match tbl.lookup sym with
            | some localName => ⟨aid, sym, .sym localName⟩
            | none =>
              let results := a.deps.filterMap fun d =>
                match d.reexports.lookup sym with
                | none => none
                | some inner =>
                  if d.excluded then some ⟨aid, sym, .skippedFalse⟩
                  else
                    match d.resolvedTo with
                    | none => none
                    | some tgt =>
                      some (resolveSymbolAux g boundary fuel
                        ((aid, sym) :: visited) tgt inner)
              (results.find? fun r =>
                  decide (r.symbol ≠ .notFoundUndefined)).getD
                ⟨aid, sym, .notFoundUndefined⟩
    else ⟨aid, sym, .notFoundUndefined⟩

/-- The call `resolveSymbol(asset, symbol, boundary)`. -/
def resolveSymbol (g : SymGraph) (boundary : Option (List String))
    (aid sym : String) : SymbolResolution :=
  resolveSymbolAux g boundary (symFuel g) [] aid sym

/-- C6: the four terminal outcomes of `resolveSymbol` are distinguished by
pairwise distinct sentinel values of the `symbol` field (so bail-out is
never conflated with not-found), and whenever traversal would leave the
caller-supplied boundary bundle the result's `symbol` is the undefined
sentinel while its `asset` field still identifies the asset reached. -/
theorem resolveSymbol_sentinels_and_boundary (g : SymGraph) (b : List String)
    (aid sym : String) (hout : aid ∉ b) :
    resolveSymbol g (some b) aid sym = ⟨aid, sym, .notFoundUndefined⟩ ∧
      (ResolvedSymbol.bailNull ≠ ResolvedSymbol.notFoundUndefined ∧
        ResolvedSymbol.bailNull ≠ ResolvedSymbol.skippedFalse ∧
        ResolvedSymbol.notFoundUndefined ≠ ResolvedSymbol.skippedFalse) ∧
      ∀ s : String, ResolvedSymbol.sym s ≠ ResolvedSymbol.bailNull ∧
        ResolvedSymbol.sym s ≠ ResolvedSymbol.notFoundUndefined ∧
        ResolvedSymbol.sym s ≠ ResolvedSymbol.skippedFalse := by
  refine ⟨?_, by refine ⟨?_, ?_, ?_⟩ <;> decide,
    fun s => ⟨fun h => ResolvedSymbol.noConfusion h,
      fun h => ResolvedSymbol.noConfusion h,
      fun h => ResolvedSymbol.noConfusion h⟩⟩
  rw [resolveSymbol, symFuel, resolveSymbolAux]
  rw [if_neg]
  simp only [boundaryHasAsset, decide_eq_true_eq]
  exact hout

/-- A one-asset graph used to instantiate the boundary theorem. -/
def sampleSymGraph : SymGraph :=
  ⟨[⟨"a", some [("x", "x1")], []⟩]⟩

theorem resolveSymbol_sentinels_and_boundary_witness :
    resolveSymbol sampleSymGraph (some ["elsewhere"]) "a" "x" =
        ⟨"a", "x", .notFoundUndefined⟩ ∧
      (ResolvedSymbol.bailNull ≠ ResolvedSymbol.notFoundUndefined ∧
        ResolvedSymbol.bailNull ≠ ResolvedSymbol.skippedFalse ∧
        ResolvedSymbol.notFoundUndefined ≠ ResolvedSymbol.skippedFalse) ∧
      ∀ s : String, ResolvedSymbol.sym s ≠ ResolvedSymbol.bailNull ∧
        ResolvedSymbol.sym s ≠ ResolvedSymbol.notFoundUndefined ∧
        ResolvedSymbol.sym s ≠ ResolvedSymbol.skippedFalse :=
  resolveSymbol_sentinels_and_boundary sampleSymGraph ["elsewhere"] "a" "x"
    (by decide)

end Parcel
